import Mathlib

/-!
Verification of the post-pectra-monitor repository: a shallow embedding of
the persistence layer (src/db.py), the voluntary-exit polling loop
(src/voluntary_exit_monitor.py), the exit-queue reconciler (src/monitor.py),
the block-fetch wrappers (src/beacon_api.py, src/monitor.py) and the
withdrawal-credentials sampler (src/validator_credentials_monitor.py),
together with theorems settling the specification claims about them.

Conventions used throughout the embedding:
- Python dicts that may be absent (for example an HTTP response without a
  data field, or a fetch that raised an exception and was caught) are
  modelled as Option values, with none for the absent or failed case.
- A fetch whose exception propagates to a caller that catches it is
  modelled as an Except value threaded into the catching function.
- The PostgreSQL tables written through src/db.py are modelled as lists of
  row structures; the SERIAL id and timestamp columns are omitted because
  no claim mentions them.
-/

namespace PostPectra

/-! ## Store embedding (src/db.py)

The voluntary_exits table (db.py, create_tables, lines 62-78) has columns
validator_index, exit_epoch, withdrawable_epoch, balance, effective_balance,
pubkey, signature, slot, epoch and the constraint
UNIQUE(validator_index, signature). -/

/-- One row of the voluntary_exits table (db.py lines 63-78, minus the
SERIAL id and the defaulted timestamp column). -/
structure VoluntaryExitRow where
  validator_index : Nat
  exit_epoch : Nat
  withdrawable_epoch : Nat
  balance : Nat
  effective_balance : Nat
  pubkey : String
  signature : String
  slot : Nat
  epoch : Nat
deriving DecidableEq, Repr

/-- The voluntary_exit dict built by monitor.py get_voluntary_exits_in_block
(lines 155-163): the record passed to Database.save_voluntary_exit. -/
structure VoluntaryExitData where
  validator_index : Nat
  exit_epoch : Nat
  withdrawable_epoch : Nat
  balance : Nat
  effective_balance : Nat
  pubkey : String
  signature : String
deriving DecidableEq, Repr

/-- Embedding of Database.save_voluntary_exit (db.py lines 168-192):
INSERT INTO voluntary_exits ... ON CONFLICT (validator_index, signature)
DO NOTHING. The insert adds a row unless the table already holds a row with
the same (validator_index, signature) pair, in which case the statement is
a no-op; PostgreSQL raises no duplicate-key error under DO NOTHING, so the
embedding is a total function on the table. -/
def save_voluntary_exit (table : List VoluntaryExitRow)
    (voluntary_exit : VoluntaryExitData) (block_slot block_epoch : Nat) :
    List VoluntaryExitRow :=
  if table.any (fun row =>
      row.validator_index == voluntary_exit.validator_index &&
      row.signature == voluntary_exit.signature) then
    table
  else
    table ++ [{ validator_index := voluntary_exit.validator_index
                exit_epoch := voluntary_exit.exit_epoch
                withdrawable_epoch := voluntary_exit.withdrawable_epoch
                balance := voluntary_exit.balance
                effective_balance := voluntary_exit.effective_balance
                pubkey := voluntary_exit.pubkey
                signature := voluntary_exit.signature
                slot := block_slot
                epoch := block_epoch }]

/-- Number of rows of the voluntary_exits table holding a given
(validator_index, signature) natural key. -/
def countExitRows (table : List VoluntaryExitRow) (idx : Nat) (sig : String) : Nat :=
  table.countP (fun row => row.validator_index == idx && row.signature == sig)

/-! ## Voluntary-exit polling loop (src/voluntary_exit_monitor.py)

The loop body of VoluntaryExitMonitor.run_voluntary_exit_monitor_loop
(lines 48-113) reads current_slot and current_epoch from the shared cache;
a tick is skipped when either is falsy in Python (None, or the number 0).
Block processing happens only when current_slot > last_processed_slot, and
only then is last_processed_slot set to current_slot. The constructor
(lines 11-16) initialises last_processed_slot to 0. -/

/-- State of the voluntary-exit monitor loop: the in-memory watermark plus
a trace of the slots for which block processing actually ran (the body of
the `if current_slot > self.last_processed_slot` branch). -/
structure ExitLoopState where
  last_processed_slot : Nat
  processedSlots : List Nat
deriving DecidableEq, Repr

/-- Initial state: VoluntaryExitMonitor sets last_processed_slot = 0 in its
constructor (voluntary_exit_monitor.py line 16); nothing has been processed. -/
def initExitLoopState : ExitLoopState :=
  { last_processed_slot := 0, processedSlots := [] }

/-- One tick of run_voluntary_exit_monitor_loop (lines 50-109). The inputs
are the cached current_slot and current_epoch (none models a cache miss).
Python truthiness: `if not current_slot or not current_epoch` skips the
tick when either value is missing or equal to 0. Otherwise the tick
processes the block exactly when current_slot > last_processed_slot, and
then advances the watermark to current_slot. -/
def exit_monitor_tick (st : ExitLoopState)
    (current_slot current_epoch : Option Nat) : ExitLoopState :=
  match current_slot, current_epoch with
  | some s, some e =>
    if s = 0 ∨ e = 0 then st
    else if st.last_processed_slot < s then
      { last_processed_slot := s, processedSlots := st.processedSlots ++ [s] }
    else st
  | _, _ => st

/-- Running the loop over a sequence of ticks. -/
def run_exit_monitor (st : ExitLoopState)
    (ticks : List (Option Nat × Option Nat)) : ExitLoopState :=
  ticks.foldl (fun st t => exit_monitor_tick st t.1 t.2) st

/-! ## Exit-queue reconciler (src/monitor.py)

ValidatorExitMonitor.get_active_exiting_validators (lines 410-465) fetches
the validators with status active_exiting; on an exception or a response
without a data field it returns None; on an empty set it returns a
zero-valued summary dict; otherwise it sums balances, sorts by exit_epoch
with the built-in sorted (a stable sort), and reads the first and last
element of the sorted list. The field name lastest_withdrawable_epoch
reproduces the spelling used by the source. -/

/-- One entry of the active_exiting validator response used by
get_active_exiting_validators: index and balance at top level, the rest
under the validator sub-object. -/
structure ExitingValidator where
  index : Nat
  balance : Nat
  exit_epoch : Nat
  withdrawable_epoch : Nat
  pubkey : String
deriving DecidableEq, Repr, Inhabited

/-- The summary dict built by get_active_exiting_validators
(monitor.py lines 425-436 and 451-462). -/
structure ActiveExitingData where
  validators_in_queue : Nat
  earliest_exit_epoch : Nat
  earliest_withdrawable_epoch : Nat
  latest_exit_epoch : Nat
  lastest_withdrawable_epoch : Nat
  first_validator_index : Nat
  first_validator_pubkey : String
  last_validator_index : Nat
  last_validator_pubkey : String
  balance_in_queue : Nat
deriving DecidableEq, Repr

/-- The comparison key used at monitor.py line 444: sort by exit_epoch. -/
def exitEpochLE (a b : ExitingValidator) : Prop :=
  a.exit_epoch ≤ b.exit_epoch

instance : DecidableRel exitEpochLE :=
  fun a b => inferInstanceAs (Decidable (a.exit_epoch ≤ b.exit_epoch))

instance : IsTotal ExitingValidator exitEpochLE :=
  ⟨fun a b => Nat.le_total a.exit_epoch b.exit_epoch⟩

instance : IsTrans ExitingValidator exitEpochLE :=
  ⟨fun _ _ _ h1 h2 => Nat.le_trans h1 h2⟩

/-- Embedding of ValidatorExitMonitor.get_active_exiting_validators
(monitor.py lines 410-465). The input models the outcome of the HTTP fetch:
none stands for a raised exception or a response without a data field (both
make the Python function return None); some vs is the validator list of the
data field. Python's sorted is stable, so the sort at lines 442-445 is
embedded as insertion sort with the non-strict exit_epoch comparison, which
computes the same list as any stable sort by that key. -/
def get_active_exiting_validators (resp : Option (List ExitingValidator)) :
    Option ActiveExitingData :=
  match resp with
  | none => none
  | some validators =>
    if validators = [] then
      some { validators_in_queue := 0
             earliest_exit_epoch := 0
             earliest_withdrawable_epoch := 0
             latest_exit_epoch := 0
             lastest_withdrawable_epoch := 0
             first_validator_index := 0
             first_validator_pubkey := ""
             last_validator_index := 0
             last_validator_pubkey := ""
             balance_in_queue := 0 }
    else
      let total_balance := (validators.map (·.balance)).sum
      let sorted_validators := validators.insertionSort exitEpochLE
      let first_validator := sorted_validators.headI
      let last_validator := sorted_validators.getLastI
      some { validators_in_queue := validators.length
             earliest_exit_epoch := first_validator.exit_epoch
             earliest_withdrawable_epoch := first_validator.withdrawable_epoch
             latest_exit_epoch := last_validator.exit_epoch
             lastest_withdrawable_epoch := last_validator.withdrawable_epoch
             first_validator_index := first_validator.index
             first_validator_pubkey := first_validator.pubkey
             last_validator_index := last_validator.index
             last_validator_pubkey := last_validator.pubkey
             balance_in_queue := total_balance }

/-! Reference values the claims compare the summary against: the minimal
and maximal exit_epoch in the input, the first input element attaining the
minimum, and the last input element attaining the maximum. -/

/-- Smallest exit_epoch occurring in the list (0 for the empty list). -/
def minExitEpoch (l : List ExitingValidator) : Nat :=
  ((l.map (·.exit_epoch)).min?).getD 0

/-- Largest exit_epoch occurring in the list (0 for the empty list). -/
def maxExitEpoch (l : List ExitingValidator) : Nat :=
  ((l.map (·.exit_epoch)).max?).getD 0

/-- The first element of l, in input order, whose exit_epoch attains the
minimum over l. -/
def firstMinExit (l : List ExitingValidator) : ExitingValidator :=
  (l.find? (fun v => v.exit_epoch == minExitEpoch l)).getD default

/-- The last element of l, in input order, whose exit_epoch attains the
maximum over l. -/
def lastMaxExit (l : List ExitingValidator) : ExitingValidator :=
  (l.reverse.find? (fun v => v.exit_epoch == maxExitEpoch l)).getD default

/-! ## Voluntary-exit extraction (monitor.py lines 110-172)

get_voluntary_exits_in_block reads the voluntary_exits messages out of the
block body, batch-queries the referenced validator indices in one request,
and joins the response against the messages. The whole body sits in one
try/except that returns the empty list on any exception, so a failing batch
request is swallowed, never propagated. -/

/-- One voluntary_exits entry of a block body: the message carries the
validator_index, the envelope carries the signature. -/
structure VoluntaryExitMsg where
  validator_index : Nat
  signature : String
deriving DecidableEq, Repr

/-- One entry of the batch validator-state response used for the join:
index and balance at top level, the rest under the validator sub-object. -/
structure BatchValidatorEntry where
  index : Nat
  balance : Nat
  exit_epoch : Nat
  withdrawable_epoch : Nat
  effective_balance : Nat
  pubkey : String
deriving DecidableEq, Repr

/-- The exit_data_map dict of monitor.py lines 124-130 keyed by
validator_index: a later message with the same index overwrites an earlier
one, so lookup returns the last matching message. -/
def lookupExitMsg (msgs : List VoluntaryExitMsg) (idx : Nat) :
    Option VoluntaryExitMsg :=
  msgs.reverse.find? (fun m => m.validator_index == idx)

/-- Embedding of ValidatorExitMonitor.get_voluntary_exits_in_block
(monitor.py lines 110-172). block_msgs is the voluntary_exits list of the
block body, with none when block_data is missing or lacks the
data/body/voluntary_exits fields (lines 115-120). batchResp is the outcome
of the batch validator request: Except.error models a raised exception
(caught at line 170, returning []), Except.ok none a response without a
data field (line 142, returning []), and Except.ok (some vs) the data list.
Each batch entry whose index appears in the message map yields one joined
record (lines 147-164); other entries are skipped. -/
def get_voluntary_exits_in_block (block_msgs : Option (List VoluntaryExitMsg))
    (batchResp : Except Unit (Option (List BatchValidatorEntry))) :
    List VoluntaryExitData :=
  match block_msgs with
  | none => []
  | some msgs =>
    if msgs = [] then []
    else
      match batchResp with
      | .error _ => []
      | .ok none => []
      | .ok (some vs) =>
        vs.filterMap (fun vd =>
          match lookupExitMsg msgs vd.index with
          | none => none
          | some msg =>
            some { validator_index := vd.index
                   exit_epoch := vd.exit_epoch
                   withdrawable_epoch := vd.withdrawable_epoch
                   balance := vd.balance
                   effective_balance := vd.effective_balance
                   pubkey := vd.pubkey
                   signature := msg.signature })

/-! ## The monitor_queue reconciliation step (monitor.py lines 467-521)

monitor_queue extracts the voluntary exits, collects the withdrawal
requests (get_partial_withdrawals, which saves each row as it is decoded
and returns the list), fetches the active-exiting summary when exits were
found or when no last_processed_slot attribute exists yet (the first
invocation since process start), saves the snapshot when that fetch
returned data, then sets last_processed_slot, and only after that saves
the voluntary-exit rows. The side effects are recorded as an ordered
trace. -/

/-- One persistence or state side effect of a monitor_queue invocation, in
program order. -/
inductive MQEffect where
  | saveWithdrawal (txHash : String)
  | saveSnapshot (slot epoch : Nat)
  | setWatermark (slot : Nat)
  | saveExit (validator_index : Nat) (signature : String)
deriving DecidableEq, Repr

/-- Result of one monitor_queue invocation. -/
structure MQResult where
  last_processed_slot : Option Nat
  snapshotWritten : Bool
  voluntary_exits : List VoluntaryExitData
  effects : List MQEffect
deriving DecidableEq, Repr

/-- Embedding of ValidatorExitMonitor.monitor_queue (monitor.py lines
467-521). last0 is the last_processed_slot attribute before the call, with
none when the attribute does not exist yet (hasattr is false exactly on the
first invocation since process start). slot is the slot parsed from
block_data at line 473 (a parse failure raises out of monitor_queue and is
not modelled further). withdrawalTxs abstracts the rows saved inside
get_partial_withdrawals (step 2); block_msgs and batchResp feed the exit
extraction; activeResp feeds get_active_exiting_validators. The effect
trace follows program order: withdrawal saves (line 480), the snapshot save
(line 493), the watermark update (line 499), then the exit saves
(lines 502-503). -/
def monitor_queue (last0 : Option Nat) (slot : Nat)
    (block_msgs : Option (List VoluntaryExitMsg))
    (batchResp : Except Unit (Option (List BatchValidatorEntry)))
    (withdrawalTxs : List String)
    (activeResp : Option (List ExitingValidator)) : MQResult :=
  let current_epoch := slot / 32
  let voluntary_exits := get_voluntary_exits_in_block block_msgs batchResp
  let fetchActive : Bool := decide (voluntary_exits ≠ []) || decide (last0 = none)
  let active_exiting_data :=
    if fetchActive then get_active_exiting_validators activeResp else none
  let snapshotEffects :=
    match active_exiting_data with
    | some _ => [MQEffect.saveSnapshot slot current_epoch]
    | none => []
  { last_processed_slot := some slot
    snapshotWritten := active_exiting_data.isSome
    voluntary_exits := voluntary_exits
    effects :=
      withdrawalTxs.map MQEffect.saveWithdrawal ++
      snapshotEffects ++
      MQEffect.setWatermark slot ::
      voluntary_exits.map (fun e => MQEffect.saveExit e.validator_index e.signature) }

/-- Scanning the effect trace of a monitor_queue invocation: true when no
voluntary-exit row is saved before the watermark update (or before the end
of the trace when no watermark update occurs). -/
def watermarkPrecedesExitSaves : List MQEffect → Bool
  | [] => true
  | MQEffect.setWatermark _ :: _ => true
  | MQEffect.saveExit _ _ :: _ => false
  | _ :: rest => watermarkPrecedesExitSaves rest

/-! ## Block fetches (monitor.py lines 92-108, beacon_api.py lines 59-68)

The consensus REST interface resolves /v2/beacon/blocks/head to the block
at the current head slot and /v2/beacon/blocks/s to the block at slot s.
ValidatorExitMonitor.get_block_by_slot builds the URL f-string
BEACON_API_V2 + /blocks/head, ignoring its slot argument, while
BeaconAPI.get_block builds base_url + /eth/v2/beacon/blocks/ + slot. -/

/-- A beacon block reduced to the one field the fetch claims mention: the
slot recorded in its message. -/
structure BeaconBlock where
  slot : Nat
deriving DecidableEq, Repr

/-- The chain as seen through the blocks endpoint: the current head slot
and the block stored at each slot (none for an empty slot). -/
structure BeaconChainView where
  headSlot : Nat
  blockAt : Nat → Option BeaconBlock

/-- URL path built by ValidatorExitMonitor.get_block_by_slot (monitor.py
line 98), relative to BEACON_API_V2: the f-string places no slot in the
path. -/
def get_block_by_slot_url (slot : Nat) : String :=
  "/blocks/head"

/-- URL path built by BeaconAPI.get_block (beacon_api.py line 62), relative
to base_url. -/
def BeaconAPI_get_block_url (slot : Nat) : String :=
  "/eth/v2/beacon/blocks/" ++ toString slot

/-- Embedding of ValidatorExitMonitor.get_block_by_slot (monitor.py lines
92-108) against the blocks endpoint: the request targets blocks/head, so
the returned block is the one at the head slot, whatever slot was asked
for. -/
def get_block_by_slot (chain : BeaconChainView) (slot : Nat) :
    Option BeaconBlock :=
  chain.blockAt chain.headSlot

/-- Embedding of BeaconAPI.get_block (beacon_api.py lines 59-68) against
the blocks endpoint: the request targets blocks/slot. -/
def BeaconAPI_get_block (chain : BeaconChainView) (slot : Nat) :
    Option BeaconBlock :=
  chain.blockAt slot

/-! ## Withdrawal-credentials sampler
(src/validator_credentials_monitor.py)

get_validator_credentials (lines 74-102) walks the active_ongoing
validator set and counts entries whose withdrawal_credentials string
starts with 0x01, and in an elif branch those starting with 0x02; entries
missing the validator or withdrawal_credentials field, and entries with
any other two-byte type, touch neither counter. On an exception or a
response without a data field it returns the pair (None, None). -/

/-- One sampled validator: the withdrawal_credentials string (as a
character list), with none when the validator or withdrawal_credentials
field is absent from the response entry. -/
structure SampledValidator where
  withdrawal_credentials : Option (List Char)
deriving DecidableEq, Repr

/-- Embedding of
ValidatorCredentialsMonitor.get_validator_credentials (lines 74-102).
The input models the fetch outcome: none for a raised exception or a
response without a data field (both return (None, None) in Python). The
fold mirrors the accumulation loop of lines 91-97 with its startswith
tests and the elif chain. -/
def get_validator_credentials (resp : Option (List SampledValidator)) :
    Option Nat × Option Nat :=
  match resp with
  | none => (none, none)
  | some validators =>
    let counts := validators.foldl
      (fun (acc : Nat × Nat) v =>
        match v.withdrawal_credentials with
        | none => acc
        | some wc =>
          if ['0', 'x', '0', '1'].isPrefixOf wc then (acc.1 + 1, acc.2)
          else if ['0', 'x', '0', '2'].isPrefixOf wc then (acc.1, acc.2 + 1)
          else acc)
      (0, 0)
    (some counts.1, some counts.2)

/-- True of a sampled validator counted by the first counter: the
withdrawal_credentials field is present and starts with 0x01. -/
def hasCredTy1 (v : SampledValidator) : Bool :=
  match v.withdrawal_credentials with
  | some wc => ['0', 'x', '0', '1'].isPrefixOf wc
  | none => false

/-- True of a sampled validator counted by the second counter: the
withdrawal_credentials field is present and starts with 0x02. -/
def hasCredTy2 (v : SampledValidator) : Bool :=
  match v.withdrawal_credentials with
  | some wc => ['0', 'x', '0', '2'].isPrefixOf wc
  | none => false

/-! ## Sampler start-up watermark (validator_credentials_monitor.py lines
22-35) and exit-monitor start-up watermark (voluntary_exit_monitor.py
lines 11-16). -/

/-- One row of the validator_withdrawal_credentials table (db.py lines
52-60, minus the timestamp column), as read back by the sampler at
start-up. -/
structure CredRow where
  epoch : Int
  slot : Nat
  num_0x01_validators : Nat
  num_0x02_validators : Nat
deriving DecidableEq, Repr

/-- Embedding of ValidatorCredentialsMonitor._get_last_processed_epoch
(lines 26-35): SELECT MAX(epoch) FROM validator_withdrawal_credentials,
returning -1 when the aggregate is NULL (empty table). The fold computes
the SQL MAX aggregate over the stored rows. -/
def get_last_processed_epoch (rows : List CredRow) : Int :=
  match rows.foldl
      (fun (acc : Option Int) r =>
        some (match acc with
              | none => r.epoch
              | some m => max m r.epoch))
      none with
  | none => -1
  | some m => m

/-- The initial last_processed_slot of VoluntaryExitMonitor
(voluntary_exit_monitor.py line 16). -/
def VoluntaryExitMonitor_init_last_processed_slot : Nat := 0

/-! ## Helper lemmas -/

/-- The duplicate check of save_voluntary_exit matches exactly the rows
counted by countExitRows. -/
theorem save_voluntary_exit_eq_of_mem (t : List VoluntaryExitRow)
    (ve : VoluntaryExitData) (s e : Nat)
    (h : countExitRows t ve.validator_index ve.signature ≠ 0) :
    save_voluntary_exit t ve s e = t := by
  unfold save_voluntary_exit
  rw [if_pos]
  rw [List.any_eq_true]
  unfold countExitRows at h
  rcases List.countP_pos_iff.mp (Nat.pos_of_ne_zero h) with ⟨row, hrow, hp⟩
  exact ⟨row, hrow, hp⟩

/-- With no row holding the key, save_voluntary_exit appends one row. -/
theorem save_voluntary_exit_eq_append (t : List VoluntaryExitRow)
    (ve : VoluntaryExitData) (s e : Nat)
    (h : countExitRows t ve.validator_index ve.signature = 0) :
    save_voluntary_exit t ve s e =
      t ++ [{ validator_index := ve.validator_index
              exit_epoch := ve.exit_epoch
              withdrawable_epoch := ve.withdrawable_epoch
              balance := ve.balance
              effective_balance := ve.effective_balance
              pubkey := ve.pubkey
              signature := ve.signature
              slot := s
              epoch := e }] := by
  unfold save_voluntary_exit
  rw [if_neg]
  intro hany
  rcases List.any_eq_true.mp hany with ⟨row, hrow, hp⟩
  unfold countExitRows at h
  have := List.countP_eq_zero.mp h row hrow
  exact this hp

/-! ## C1 -/

/-- C1: persisting the same voluntary-exit record twice through
save_voluntary_exit is idempotent — the second insert is a no-op returning
the table unchanged rather than a duplicate-key error (the embedding of ON
CONFLICT DO NOTHING is a total function) — and the table ends up with
exactly one row holding the (validator_index, signature) key. -/
theorem save_voluntary_exit_idempotent (t : List VoluntaryExitRow)
    (ve : VoluntaryExitData) (s e : Nat)
    (h : countExitRows t ve.validator_index ve.signature = 0) :
    save_voluntary_exit (save_voluntary_exit t ve s e) ve s e =
      save_voluntary_exit t ve s e ∧
    countExitRows (save_voluntary_exit (save_voluntary_exit t ve s e) ve s e)
      ve.validator_index ve.signature = 1 := by
  have h1 := save_voluntary_exit_eq_append t ve s e h
  have hcount1 : countExitRows (save_voluntary_exit t ve s e)
      ve.validator_index ve.signature = 1 := by
    rw [h1]
    unfold countExitRows at h ⊢
    rw [List.countP_append, h]
    simp
  have h2 : save_voluntary_exit (save_voluntary_exit t ve s e) ve s e =
      save_voluntary_exit t ve s e := by
    apply save_voluntary_exit_eq_of_mem
    rw [hcount1]
    exact Nat.one_ne_zero
  exact ⟨h2, by rw [h2, hcount1]⟩

/-- Witness for C1 at a concrete record and the empty table. -/
theorem save_voluntary_exit_idempotent_witness :
    countExitRows [] 42 "0xdef" = 0 ∧
    (save_voluntary_exit
        (save_voluntary_exit [] ⟨42, 10, 266, 32000000000, 32000000000, "0xabc", "0xdef"⟩ 320 10)
        ⟨42, 10, 266, 32000000000, 32000000000, "0xabc", "0xdef"⟩ 320 10 =
      save_voluntary_exit [] ⟨42, 10, 266, 32000000000, 32000000000, "0xabc", "0xdef"⟩ 320 10 ∧
    countExitRows
        (save_voluntary_exit
          (save_voluntary_exit [] ⟨42, 10, 266, 32000000000, 32000000000, "0xabc", "0xdef"⟩ 320 10)
          ⟨42, 10, 266, 32000000000, 32000000000, "0xabc", "0xdef"⟩ 320 10)
        42 "0xdef" = 1) :=
  ⟨rfl, save_voluntary_exit_idempotent []
    ⟨42, 10, 266, 32000000000, 32000000000, "0xabc", "0xdef"⟩ 320 10 rfl⟩

/-! ## C2 -/

/-- Running the loop over strictly increasing slots of at least one full
epoch (so that both the slot and its derived epoch are nonzero) processes
each slot exactly once and leaves the watermark at the last slot. -/
theorem run_exit_monitor_spec (slots : List Nat) (st : ExitLoopState)
    (hmono : slots.Chain' (· < ·)) (hge : ∀ s ∈ slots, 32 ≤ s)
    (hlt : ∀ s ∈ slots.head?, st.last_processed_slot < s) :
    run_exit_monitor st (slots.map (fun s => (some s, some (s / 32)))) =
      { last_processed_slot := slots.getLast?.getD st.last_processed_slot
        processedSlots := st.processedSlots ++ slots } := by
  induction slots generalizing st with
  | nil => simp [run_exit_monitor]
  | cons s rest ih =>
    have hs32 : 32 ≤ s := hge s (List.mem_cons_self s rest)
    have hsne : ¬(s = 0 ∨ s / 32 = 0) := by
      rintro (h0 | h0)
      · omega
      · have : 1 ≤ s / 32 := Nat.one_le_div_iff (by omega) |>.mpr hs32
        omega
    have hslt : st.last_processed_slot < s := hlt s (by simp)
    have htick : exit_monitor_tick st (some s) (some (s / 32)) =
        { last_processed_slot := s
          processedSlots := st.processedSlots ++ [s] } := by
      simp only [exit_monitor_tick]
      rw [if_neg hsne, if_pos hslt]
    have hstep : run_exit_monitor st
        ((s :: rest).map (fun s => (some s, some (s / 32)))) =
        run_exit_monitor { last_processed_slot := s
                           processedSlots := st.processedSlots ++ [s] }
          (rest.map (fun s => (some s, some (s / 32)))) := by
      simp only [List.map_cons, run_exit_monitor, List.foldl_cons]
      rw [show (exit_monitor_tick st (some s, some (s / 32)).1
            (some s, some (s / 32)).2) = exit_monitor_tick st (some s) (some (s / 32)) from rfl]
      rw [htick]
    have hrest := ih { last_processed_slot := s, processedSlots := st.processedSlots ++ [s] }
      (List.chain'_cons'.mp hmono).2
      (fun x hx => hge x (List.mem_cons_of_mem s hx))
      (by
        intro x hx
        cases rest with
        | nil => simp at hx
        | cons r rest2 =>
          simp only [List.head?_cons, Option.mem_some_iff] at hx
          rw [← hx]
          exact (List.chain'_cons'.mp hmono).1 r rfl)
    rw [hstep, hrest]
    cases rest with
    | nil => simp
    | cons r rest2 =>
      have hne : (r :: rest2) ≠ [] := by simp
      rw [List.getLast?_cons_cons, List.getLast?_eq_getLast (r :: rest2) hne]
      simp

/-- C2 corrected: over ticks whose head slots are strictly increasing and
at least 32 (so that the derived epoch is nonzero and the Python truthiness
guard `if not current_slot or not current_epoch` does not skip the tick),
the watermark after all ticks equals the last (highest) slot observed, the
processed-slot trace is exactly the slot sequence — strict monotonicity
makes it duplicate-free, so no slot is processed twice — and a tick whose
slot is at most the watermark performs no block processing and leaves the
state unchanged. -/
theorem exit_monitor_watermark (slots : List Nat)
    (hmono : slots.Chain' (· < ·)) (hge : ∀ s ∈ slots, 32 ≤ s)
    (st : ExitLoopState) (s e : Nat) (hse : s ≤ st.last_processed_slot) :
    (run_exit_monitor initExitLoopState
        (slots.map (fun s => (some s, some (s / 32))))).last_processed_slot =
      slots.getLast?.getD 0 ∧
    (run_exit_monitor initExitLoopState
        (slots.map (fun s => (some s, some (s / 32))))).processedSlots = slots ∧
    slots.Nodup ∧
    exit_monitor_tick st (some s) (some e) = st := by
  have hrun := run_exit_monitor_spec slots initExitLoopState hmono hge
    (by
      intro x hx
      cases slots with
      | nil => simp at hx
      | cons a l =>
        simp only [List.head?_cons, Option.mem_some_iff] at hx
        rw [← hx]
        have := hge a (List.mem_cons_self a l)
        simp only [initExitLoopState]
        omega)
  refine ⟨by rw [hrun]; rfl, by rw [hrun]; simp [initExitLoopState], ?_, ?_⟩
  · have hpw : slots.Pairwise (· < ·) := List.chain'_iff_pairwise.mp hmono
    exact hpw.imp Nat.ne_of_lt
  · simp only [exit_monitor_tick]
    by_cases h0 : s = 0 ∨ e = 0
    · rw [if_pos h0]
    · rw [if_neg h0, if_neg (by omega)]

/-- Counterexample to C2 as stated: a single tick at head slot 5 (derived
epoch 5 / 32 = 0) is skipped by the truthiness guard, so the watermark
stays 0 instead of reaching the highest observed slot 5. -/
theorem exit_monitor_watermark_counterexample :
    run_exit_monitor initExitLoopState [(some 5, some (5 / 32))] =
      initExitLoopState ∧
    (run_exit_monitor initExitLoopState
        [(some 5, some (5 / 32))]).last_processed_slot ≠ 5 := by
  constructor
  · rfl
  · intro h
    simp [run_exit_monitor, exit_monitor_tick, initExitLoopState] at h

/-- Witness for the corrected C2 at the concrete slot sequence [32, 64]. -/
theorem exit_monitor_watermark_witness :
    (run_exit_monitor initExitLoopState
        ([32, 64].map (fun s => (some s, some (s / 32))))).last_processed_slot =
      [32, 64].getLast?.getD 0 ∧
    (run_exit_monitor initExitLoopState
        ([32, 64].map (fun s => (some s, some (s / 32))))).processedSlots = [32, 64] ∧
    [32, 64].Nodup ∧
    exit_monitor_tick ⟨64, [32, 64]⟩ (some 64) (some 2) = ⟨64, [32, 64]⟩ :=
  exit_monitor_watermark [32, 64] (by simp [List.chain'_cons]) (by decide)
    ⟨64, [32, 64]⟩ 64 2 (by decide)

/-! ## C3, C10: snapshot-writing condition of monitor_queue -/

/-- The active-exiting summary exists exactly when the fetch produced a
data field: get_active_exiting_validators maps none to none and any data
list (empty or not) to some summary. -/
theorem isSome_get_active_exiting_validators
    (resp : Option (List ExitingValidator)) :
    (get_active_exiting_validators resp).isSome = resp.isSome := by
  cases resp with
  | none => rfl
  | some validators =>
    simp only [get_active_exiting_validators]
    by_cases h : validators = []
    · rw [if_pos h]; rfl
    · rw [if_neg h]; rfl

/-- C3 corrected: a monitor_queue invocation writes an ExitQueueSnapshot
row if and only if the extracted voluntary-exit list is nonempty or the
invocation is the first since process start (no last_processed_slot
attribute yet), AND the active-exiting fetch returned a data field. In
particular a non-first invocation on a zero-exit block writes no snapshot,
and the first invocation writes one only when the fetch succeeds. -/
theorem monitor_queue_snapshot_condition (last0 : Option Nat) (slot : Nat)
    (block_msgs : Option (List VoluntaryExitMsg))
    (batchResp : Except Unit (Option (List BatchValidatorEntry)))
    (withdrawalTxs : List String)
    (activeResp : Option (List ExitingValidator)) :
    (monitor_queue last0 slot block_msgs batchResp withdrawalTxs
        activeResp).snapshotWritten = true ↔
      ((get_voluntary_exits_in_block block_msgs batchResp ≠ [] ∨ last0 = none) ∧
        activeResp.isSome = true) := by
  simp only [monitor_queue]
  by_cases hfetch : get_voluntary_exits_in_block block_msgs batchResp ≠ [] ∨ last0 = none
  · rw [if_pos (by simpa [Bool.or_eq_true, decide_eq_true_iff] using hfetch)]
    rw [isSome_get_active_exiting_validators]
    simp [hfetch]
  · rw [if_neg (by simpa [Bool.or_eq_true, decide_eq_true_iff] using hfetch)]
    simp [hfetch]

/-- Counterexample to C3 as stated: on the very first invocation (no
last_processed_slot attribute), with a block holding zero voluntary exits,
a failed active-exiting fetch (no data field) makes monitor_queue write no
snapshot, although the claim promises one for every first invocation. -/
theorem monitor_queue_first_invocation_counterexample :
    (monitor_queue none 320 (some []) (.ok (some [])) [] none).snapshotWritten =
      false ∧
    get_voluntary_exits_in_block (some []) (.ok (some [])) = [] := by
  constructor
  · rfl
  · rfl

/-! ## C4: failure handling and watermark ordering of monitor_queue -/

/-- Scanning the effect trace ignores a leading block of withdrawal
saves. -/
theorem watermarkPrecedesExitSaves_withdrawals (ws : List String)
    (rest : List MQEffect) :
    watermarkPrecedesExitSaves (ws.map MQEffect.saveWithdrawal ++ rest) =
      watermarkPrecedesExitSaves rest := by
  induction ws with
  | nil => rfl
  | cons w ws ih => simpa [watermarkPrecedesExitSaves] using ih

/-- C4 corrected: monitor_queue advances the in-memory watermark
last_processed_slot to the current slot on every completed invocation —
including one whose voluntary-exits fetch failed, since
get_voluntary_exits_in_block swallows the exception and returns the empty
list — and the watermark update appears in the effect trace before any
voluntary-exit row is persisted, not after the reconciler returns. -/
theorem monitor_queue_watermark_always_advances (last0 : Option Nat)
    (slot : Nat) (block_msgs : Option (List VoluntaryExitMsg))
    (batchResp : Except Unit (Option (List BatchValidatorEntry)))
    (withdrawalTxs : List String)
    (activeResp : Option (List ExitingValidator)) :
    (monitor_queue last0 slot block_msgs batchResp withdrawalTxs
        activeResp).last_processed_slot = some slot ∧
    watermarkPrecedesExitSaves
      (monitor_queue last0 slot block_msgs batchResp withdrawalTxs
        activeResp).effects = true ∧
    get_voluntary_exits_in_block block_msgs (.error ()) = [] := by
  refine ⟨rfl, ?_, ?_⟩
  · simp only [monitor_queue]
    rw [List.append_assoc, watermarkPrecedesExitSaves_withdrawals]
    cases hact : (if (decide (get_voluntary_exits_in_block block_msgs batchResp ≠ []) ||
        decide (last0 = none)) = true then
        get_active_exiting_validators activeResp else none) with
    | none => rfl
    | some d => rfl
  · cases block_msgs with
    | none => rfl
    | some msgs =>
      simp only [get_voluntary_exits_in_block]
      by_cases h : msgs = []
      · rw [if_pos h]
      · rw [if_neg h]

/-- Counterexample to C4 as stated: the block at slot 320 holds one
voluntary-exit message, the batch validator fetch raises (an upstream
fetch failure), yet the monitor_queue call does not abort — it completes
with an empty extracted-exit list and advances the watermark from 319 to
320. -/
theorem monitor_queue_fetch_failure_counterexample :
    (monitor_queue (some 319) 320 (some [⟨42, "0xdef"⟩]) (.error ()) []
        (some [])).last_processed_slot = some 320 ∧
    (monitor_queue (some 319) 320 (some [⟨42, "0xdef"⟩]) (.error ()) []
        (some [])).voluntary_exits = [] := by
  constructor
  · rfl
  · rfl

/-! ## C5: block fetch target -/

/-- C5 corrected: ValidatorExitMonitor.get_block_by_slot ignores its slot
argument — any two slots give the same request, which resolves to the
block at the head slot — while BeaconAPI.get_block requests the block at
the given slot, with the slot placed in the URL path. -/
theorem get_block_by_slot_ignores_slot (chain : BeaconChainView)
    (s1 s2 : Nat) :
    get_block_by_slot chain s1 = get_block_by_slot chain s2 ∧
    get_block_by_slot chain s1 = chain.blockAt chain.headSlot ∧
    BeaconAPI_get_block chain s1 = chain.blockAt s1 ∧
    BeaconAPI_get_block_url s1 = "/eth/v2/beacon/blocks/" ++ toString s1 :=
  ⟨rfl, rfl, rfl, rfl⟩

/-- Counterexample to C5 as stated: on a chain whose head slot is 321 and
whose block at each slot records that slot, asking get_block_by_slot for
slot 320 returns the block at slot 321 — the head block, not the block
identified by the given pointer — and the request URL contains no slot. -/
theorem get_block_by_slot_counterexample :
    get_block_by_slot ⟨321, fun n => some ⟨n⟩⟩ 320 ≠
      BeaconChainView.blockAt ⟨321, fun n => some ⟨n⟩⟩ 320 ∧
    get_block_by_slot_url 320 ≠ "/blocks/" ++ toString 320 := by
  constructor
  · intro h
    simp only [get_block_by_slot] at h
    have : (321 : Nat) = 320 := congrArg (fun o => (o.getD ⟨0⟩).slot) h
    omega
  · intro h
    have : "/blocks/head" = "/blocks/320" := h
    simp at this

/-- C10 confirmed: when the active-exiting fetch raises or returns no data
field (modelled by the none input), get_active_exiting_validators returns
none — not the zero-valued sentinel — and monitor_queue then writes no
snapshot while still completing and advancing the watermark, whatever the
other inputs, including the first invocation since process start. -/
theorem monitor_queue_failed_active_fetch (last0 : Option Nat) (slot : Nat)
    (block_msgs : Option (List VoluntaryExitMsg))
    (batchResp : Except Unit (Option (List BatchValidatorEntry)))
    (withdrawalTxs : List String) :
    get_active_exiting_validators none = none ∧
    (monitor_queue last0 slot block_msgs batchResp withdrawalTxs
        none).snapshotWritten = false ∧
    (monitor_queue last0 slot block_msgs batchResp withdrawalTxs
        none).last_processed_slot = some slot := by
  refine ⟨rfl, ?_, rfl⟩
  simp only [monitor_queue]
  cases hb : (decide (get_voluntary_exits_in_block block_msgs batchResp ≠ []) ||
      decide (last0 = none)) with
  | false => simp [hb]
  | true => simp [hb, get_active_exiting_validators]

/-! ## C6: queue summary on a non-empty active-exiting set -/

/-- Specialisation of the min? characterisation to natural numbers. -/
theorem nat_min?_eq_some_iff (xs : List Nat) (m : Nat) :
    xs.min? = some m ↔ m ∈ xs ∧ ∀ x ∈ xs, m ≤ x :=
  List.min?_eq_some_iff (fun a => Nat.le_refl a)
    (fun a b => by omega) (fun a b c => Nat.le_min)

/-- Specialisation of the max? characterisation to natural numbers. -/
theorem nat_max?_eq_some_iff (xs : List Nat) (m : Nat) :
    xs.max? = some m ↔ m ∈ xs ∧ ∀ x ∈ xs, x ≤ m :=
  List.max?_eq_some_iff (fun a => Nat.le_refl a)
    (fun a b => by omega) (fun a b c => Nat.max_le)

/-- The head of a filtered list is the first element satisfying the
predicate. -/
theorem filter_head?_eq_find? {α : Type} (p : α → Bool) :
    ∀ l : List α, (l.filter p).head? = l.find? p
  | [] => rfl
  | a :: l => by
    by_cases h : p a = true
    · rw [List.filter_cons_of_pos h, List.find?_cons_of_pos _ h, List.head?_cons]
    · rw [List.filter_cons_of_neg (by simpa using h),
        List.find?_cons_of_neg _ (by simpa using h), filter_head?_eq_find? p l]

/-- Filtering for one exit_epoch value commutes with orderedInsert: the
inserted element lands in front of the retained elements exactly when it
carries that value, because every element it is inserted past has a
strictly smaller exit_epoch. -/
theorem filter_key_orderedInsert (k : Nat) (a : ExitingValidator) :
    ∀ l : List ExitingValidator,
      (List.orderedInsert exitEpochLE a l).filter (fun v => v.exit_epoch == k) =
        if a.exit_epoch == k then
          a :: l.filter (fun v => v.exit_epoch == k)
        else l.filter (fun v => v.exit_epoch == k)
  | [] => by
    cases hpa : a.exit_epoch == k <;>
      simp [List.orderedInsert_nil, List.filter_cons, hpa]
  | b :: l => by
    simp only [List.orderedInsert]
    by_cases hr : exitEpochLE a b
    · rw [if_pos hr]
      cases hpa : a.exit_epoch == k <;>
        simp [List.filter_cons, hpa]
    · rw [if_neg hr]
      have hba : b.exit_epoch < a.exit_epoch := by
        simp only [exitEpochLE] at hr
        omega
      have ih := filter_key_orderedInsert k a l
      cases hpa : a.exit_epoch == k with
      | true =>
        have hka : a.exit_epoch = k := by simpa using hpa
        have hpb : (b.exit_epoch == k) = false := by
          simp only [beq_eq_false_iff_ne, ne_eq]
          omega
        simp [List.filter_cons, hpa, hpb, ih]
      | false =>
        cases hpb : b.exit_epoch == k <;>
          simp [List.filter_cons, hpa, hpb, ih]

/-- Stability of the embedded sort, stated through filters: the elements
carrying any one exit_epoch value appear in the sorted list exactly as
they appear in the input. -/
theorem filter_key_insertionSort (k : Nat) :
    ∀ l : List ExitingValidator,
      ((l.insertionSort exitEpochLE).filter (fun v => v.exit_epoch == k)) =
        l.filter (fun v => v.exit_epoch == k)
  | [] => rfl
  | a :: l => by
    simp only [List.insertionSort]
    rw [filter_key_orderedInsert, filter_key_insertionSort k l]
    cases hpa : a.exit_epoch == k <;>
      simp [List.filter_cons, hpa]

/-- The head of the sorted list is the first input element attaining the
minimal exit_epoch, and its exit_epoch is that minimum. -/
theorem headI_insertionSort_min (l : List ExitingValidator) (hl : l ≠ []) :
    (l.insertionSort exitEpochLE).headI = firstMinExit l ∧
    (firstMinExit l).exit_epoch = minExitEpoch l := by
  have hsne : l.insertionSort exitEpochLE ≠ [] := by
    intro h
    exact hl (List.eq_nil_of_length_eq_zero
      (by rw [← List.length_insertionSort exitEpochLE l, h, List.length_nil]))
  obtain ⟨h, t, hst⟩ := List.exists_cons_of_ne_nil hsne
  have hsorted := List.sorted_insertionSort exitEpochLE l
  rw [hst] at hsorted
  have hrel : ∀ x ∈ t, h.exit_epoch ≤ x.exit_epoch :=
    fun x hx => List.rel_of_pairwise_cons hsorted hx
  have hmem : ∀ x ∈ l, h.exit_epoch ≤ x.exit_epoch := by
    intro x hx
    have : x ∈ l.insertionSort exitEpochLE := (List.mem_insertionSort _).mpr hx
    rw [hst] at this
    rcases List.mem_cons.mp this with hxh | hxt
    · rw [hxh]
    · exact hrel x hxt
  have hhl : h ∈ l := by
    have : h ∈ l.insertionSort exitEpochLE := by rw [hst]; exact List.mem_cons_self h t
    exact (List.mem_insertionSort _).mp this
  have hmin : minExitEpoch l = h.exit_epoch := by
    unfold minExitEpoch
    rw [(nat_min?_eq_some_iff _ _).mpr
      ⟨List.mem_map_of_mem (·.exit_epoch) hhl,
        fun y hy => by
          rcases List.mem_map.mp hy with ⟨x, hx, hxy⟩
          rw [← hxy]
          exact hmem x hx⟩]
    rfl
  have hph : (h.exit_epoch == minExitEpoch l) = true := by
    rw [hmin]
    exact beq_self_eq_true _
  have hfind : l.find? (fun v => v.exit_epoch == minExitEpoch l) = some h := by
    rw [← filter_head?_eq_find?, ← filter_key_insertionSort (minExitEpoch l) l,
      hst]
    simp [List.filter_cons, hph]
  constructor
  · rw [hst]
    unfold firstMinExit
    rw [hfind]
    rfl
  · unfold firstMinExit
    rw [hfind, Option.getD_some, hmin]

/-- The last element of the sorted list is the last input element
attaining the maximal exit_epoch, and its exit_epoch is that maximum. -/
theorem getLastI_insertionSort_max (l : List ExitingValidator) (hl : l ≠ []) :
    (l.insertionSort exitEpochLE).getLastI = lastMaxExit l ∧
    (lastMaxExit l).exit_epoch = maxExitEpoch l := by
  have hsne : l.insertionSort exitEpochLE ≠ [] := by
    intro h
    exact hl (List.eq_nil_of_length_eq_zero
      (by rw [← List.length_insertionSort exitEpochLE l, h, List.length_nil]))
  have hrne : (l.insertionSort exitEpochLE).reverse ≠ [] := by
    simpa using hsne
  obtain ⟨g, t, hrev⟩ := List.exists_cons_of_ne_nil hrne
  have hsorted : ((l.insertionSort exitEpochLE).reverse).Pairwise
      (fun a b => exitEpochLE b a) := by
    rw [List.pairwise_reverse]
    exact List.sorted_insertionSort exitEpochLE l
  rw [hrev] at hsorted
  have hrel : ∀ x ∈ t, x.exit_epoch ≤ g.exit_epoch :=
    fun x hx => List.rel_of_pairwise_cons hsorted hx
  have hmem : ∀ x ∈ l, x.exit_epoch ≤ g.exit_epoch := by
    intro x hx
    have hxs : x ∈ (l.insertionSort exitEpochLE).reverse := by
      rw [List.mem_reverse]
      exact (List.mem_insertionSort _).mpr hx
    rw [hrev] at hxs
    rcases List.mem_cons.mp hxs with hxh | hxt
    · rw [hxh]
    · exact hrel x hxt
  have hgl : g ∈ l := by
    have hgs : g ∈ (l.insertionSort exitEpochLE).reverse := by
      rw [hrev]; exact List.mem_cons_self g t
    rw [List.mem_reverse] at hgs
    exact (List.mem_insertionSort _).mp hgs
  have hmax : maxExitEpoch l = g.exit_epoch := by
    unfold maxExitEpoch
    rw [(nat_max?_eq_some_iff _ _).mpr
      ⟨List.mem_map_of_mem (·.exit_epoch) hgl,
        fun y hy => by
          rcases List.mem_map.mp hy with ⟨x, hx, hxy⟩
          rw [← hxy]
          exact hmem x hx⟩]
    rfl
  have hpg : (g.exit_epoch == maxExitEpoch l) = true := by
    rw [hmax]
    exact beq_self_eq_true _
  have hfind : l.reverse.find? (fun v => v.exit_epoch == maxExitEpoch l) =
      some g := by
    rw [← filter_head?_eq_find?, List.filter_reverse,
      ← filter_key_insertionSort (maxExitEpoch l) l, ← List.filter_reverse,
      hrev]
    simp [List.filter_cons, hpg]
  constructor
  · rw [List.getLastI_eq_getLast?, ← List.head?_reverse, hrev, List.head?_cons]
    unfold lastMaxExit
    rw [hfind]
    rfl
  · unfold lastMaxExit
    rw [hfind, Option.getD_some, hmax]

/-- C6 confirmed: on a non-empty active-exiting set, the summary built by
get_active_exiting_validators counts the whole set, sums all balances, and
reads earliest and latest from the ends of the stable ascending
exit_epoch sort — so the earliest fields come from the first input element
attaining the minimal exit_epoch and the latest fields from the last input
element attaining the maximal exit_epoch, input order breaking ties. -/
theorem get_active_exiting_validators_summary (l : List ExitingValidator)
    (hl : l ≠ []) :
    get_active_exiting_validators (some l) = some
      { validators_in_queue := l.length
        earliest_exit_epoch := minExitEpoch l
        earliest_withdrawable_epoch := (firstMinExit l).withdrawable_epoch
        latest_exit_epoch := maxExitEpoch l
        lastest_withdrawable_epoch := (lastMaxExit l).withdrawable_epoch
        first_validator_index := (firstMinExit l).index
        first_validator_pubkey := (firstMinExit l).pubkey
        last_validator_index := (lastMaxExit l).index
        last_validator_pubkey := (lastMaxExit l).pubkey
        balance_in_queue := (l.map (·.balance)).sum } := by
  obtain ⟨hhead, hheadmin⟩ := headI_insertionSort_min l hl
  obtain ⟨hlast, hlastmax⟩ := getLastI_insertionSort_max l hl
  simp only [get_active_exiting_validators]
  rw [if_neg hl, hhead, hlast, hheadmin, hlastmax]

/-- Witness for C6 on a concrete two-element set sharing one exit_epoch:
the tie is broken by input order, so the first element is earliest and the
second is latest. -/
theorem get_active_exiting_validators_summary_witness :
    ([⟨7, 300, 50, 306, "0xaa"⟩, ⟨9, 301, 50, 306, "0xbb"⟩] :
      List ExitingValidator) ≠ [] ∧
    get_active_exiting_validators
        (some [⟨7, 300, 50, 306, "0xaa"⟩, ⟨9, 301, 50, 306, "0xbb"⟩]) = some
      { validators_in_queue :=
          ([⟨7, 300, 50, 306, "0xaa"⟩, ⟨9, 301, 50, 306, "0xbb"⟩] :
            List ExitingValidator).length
        earliest_exit_epoch :=
          minExitEpoch [⟨7, 300, 50, 306, "0xaa"⟩, ⟨9, 301, 50, 306, "0xbb"⟩]
        earliest_withdrawable_epoch :=
          (firstMinExit [⟨7, 300, 50, 306, "0xaa"⟩, ⟨9, 301, 50, 306, "0xbb"⟩]).withdrawable_epoch
        latest_exit_epoch :=
          maxExitEpoch [⟨7, 300, 50, 306, "0xaa"⟩, ⟨9, 301, 50, 306, "0xbb"⟩]
        lastest_withdrawable_epoch :=
          (lastMaxExit [⟨7, 300, 50, 306, "0xaa"⟩, ⟨9, 301, 50, 306, "0xbb"⟩]).withdrawable_epoch
        first_validator_index :=
          (firstMinExit [⟨7, 300, 50, 306, "0xaa"⟩, ⟨9, 301, 50, 306, "0xbb"⟩]).index
        first_validator_pubkey :=
          (firstMinExit [⟨7, 300, 50, 306, "0xaa"⟩, ⟨9, 301, 50, 306, "0xbb"⟩]).pubkey
        last_validator_index :=
          (lastMaxExit [⟨7, 300, 50, 306, "0xaa"⟩, ⟨9, 301, 50, 306, "0xbb"⟩]).index
        last_validator_pubkey :=
          (lastMaxExit [⟨7, 300, 50, 306, "0xaa"⟩, ⟨9, 301, 50, 306, "0xbb"⟩]).pubkey
        balance_in_queue :=
          (([⟨7, 300, 50, 306, "0xaa"⟩, ⟨9, 301, 50, 306, "0xbb"⟩] :
            List ExitingValidator).map (·.balance)).sum } :=
  ⟨by decide, get_active_exiting_validators_summary
    [⟨7, 300, 50, 306, "0xaa"⟩, ⟨9, 301, 50, 306, "0xbb"⟩] (by decide)⟩

/-! ## C7: empty active-exiting set -/

/-- C7 confirmed: a successful fetch returning zero active_exiting
validators makes get_active_exiting_validators return the zero-valued
sentinel summary — every count, epoch and index 0, both pubkeys empty —
rather than none or an error (the embedding is a total function and the
empty-data branch of the source returns the literal zero dict). -/
theorem get_active_exiting_validators_empty :
    get_active_exiting_validators (some []) = some
      { validators_in_queue := 0
        earliest_exit_epoch := 0
        earliest_withdrawable_epoch := 0
        latest_exit_epoch := 0
        lastest_withdrawable_epoch := 0
        first_validator_index := 0
        first_validator_pubkey := ""
        last_validator_index := 0
        last_validator_pubkey := ""
        balance_in_queue := 0 } := rfl

/-! ## C8: withdrawal-credential classification -/

/-- A credentials string starting with 0x01 does not start with 0x02. -/
theorem not_ty2_of_ty1 (wc : List Char)
    (h : ['0', 'x', '0', '1'].isPrefixOf wc = true) :
    ['0', 'x', '0', '2'].isPrefixOf wc = false := by
  match wc with
  | [] => simp [List.isPrefixOf] at h
  | [c1] => simp [List.isPrefixOf] at h
  | [c1, c2] => simp [List.isPrefixOf] at h
  | [c1, c2, c3] => simp [List.isPrefixOf] at h
  | c1 :: c2 :: c3 :: c4 :: rest =>
    simp only [List.isPrefixOf, Bool.and_eq_true, beq_iff_eq] at h
    obtain ⟨h1, h2, h3, h4, _⟩ := h
    simp only [List.isPrefixOf, Bool.and_eq_false_iff]
    right
    right
    right
    left
    rw [← h4]
    decide

/-- The counting loop of get_validator_credentials, started from any
accumulator pair, adds the per-type counts of the remaining list. -/
theorem cred_fold_counts (vs : List SampledValidator) :
    ∀ a b : Nat,
      vs.foldl
        (fun (acc : Nat × Nat) v =>
          match v.withdrawal_credentials with
          | none => acc
          | some wc =>
            if ['0', 'x', '0', '1'].isPrefixOf wc then (acc.1 + 1, acc.2)
            else if ['0', 'x', '0', '2'].isPrefixOf wc then (acc.1, acc.2 + 1)
            else acc)
        (a, b) =
      (a + vs.countP hasCredTy1, b + vs.countP hasCredTy2) := by
  induction vs with
  | nil => intro a b; simp
  | cons v vs ih =>
    intro a b
    rw [List.foldl_cons]
    cases hwc : v.withdrawal_credentials with
    | none =>
      have h1 : hasCredTy1 v = false := by simp [hasCredTy1, hwc]
      have h2 : hasCredTy2 v = false := by simp [hasCredTy2, hwc]
      simp only [hwc, ih, List.countP_cons, h1, h2]
      simp
    | some wc =>
      by_cases hp1 : ['0', 'x', '0', '1'].isPrefixOf wc = true
      · have h1 : hasCredTy1 v = true := by simp [hasCredTy1, hwc, hp1]
        have h2 : hasCredTy2 v = false := by
          simp [hasCredTy2, hwc, not_ty2_of_ty1 wc hp1]
        simp only [hwc, hp1, if_true, ih, List.countP_cons, h1, h2]
        simp
        omega
      · have h1 : hasCredTy1 v = false := by
          simp only [hasCredTy1, hwc]
          exact Bool.eq_false_iff.mpr hp1
        by_cases hp2 : ['0', 'x', '0', '2'].isPrefixOf wc = true
        · have h2 : hasCredTy2 v = true := by simp [hasCredTy2, hwc, hp2]
          simp only [hwc, if_neg hp1, hp2, if_true, ih, List.countP_cons, h1, h2]
          simp
          omega
        · have h2 : hasCredTy2 v = false := by
            simp only [hasCredTy2, hwc]
            exact Bool.eq_false_iff.mpr hp2
          simp only [hwc, if_neg hp1, if_neg hp2, ih, List.countP_cons, h1, h2]
          simp

/-- C8 confirmed: over any sampled validator list, get_validator_credentials
returns exactly the count of validators whose credentials start with 0x01
in the first counter and exactly the count of those starting with 0x02 in
the second; a validator with any other two-byte type, or with the
credentials field absent, is counted in neither, and the two counts sum to
at most the number of validators sampled. -/
theorem get_validator_credentials_classification (vs : List SampledValidator) :
    get_validator_credentials (some vs) =
      (some (vs.countP hasCredTy1), some (vs.countP hasCredTy2)) ∧
    vs.countP hasCredTy1 + vs.countP hasCredTy2 ≤ vs.length := by
  constructor
  · simp only [get_validator_credentials]
    rw [cred_fold_counts vs 0 0]
    simp
  · have hmono : vs.countP hasCredTy2 ≤
        vs.countP (fun v => ¬hasCredTy1 v) := by
      apply List.countP_mono_left
      intro v _ h2
      simp only [decide_eq_true_eq]
      intro h1
      cases hwc : v.withdrawal_credentials with
      | none => simp [hasCredTy1, hwc] at h1
      | some wc =>
        simp only [hasCredTy1, hwc] at h1
        simp only [hasCredTy2, hwc] at h2
        rw [not_ty2_of_ty1 wc h1] at h2
        exact absurd h2 (by simp)
    calc
      vs.countP hasCredTy1 + vs.countP hasCredTy2 ≤
          vs.countP hasCredTy1 + vs.countP (fun v => ¬hasCredTy1 v) :=
        Nat.add_le_add_left hmono _
      _ = vs.length := (List.length_eq_countP_add_countP hasCredTy1 vs).symm

/-! ## C9: watermark origin at process start -/

/-- The fold implementing SELECT MAX(epoch), once seeded with a value,
computes the running maximum over the remaining epochs. -/
theorem sql_max_fold_some (rows : List CredRow) :
    ∀ m : Int,
      rows.foldl
          (fun (acc : Option Int) r =>
            some (match acc with
                  | none => r.epoch
                  | some m => max m r.epoch))
          (some m) =
        some ((rows.map (·.epoch)).foldl max m) := by
  induction rows with
  | nil => intro m; rfl
  | cons r rows ih =>
    intro m
    rw [List.foldl_cons, List.map_cons, List.foldl_cons]
    exact ih (max m r.epoch)

/-- The fold implementing SELECT MAX(epoch) computes max? over the stored
epochs. -/
theorem sql_max_fold_eq_max? (rows : List CredRow) :
    rows.foldl
        (fun (acc : Option Int) r =>
          some (match acc with
                | none => r.epoch
                | some m => max m r.epoch))
        none =
      (rows.map (·.epoch)).max? := by
  cases rows with
  | nil => rfl
  | cons r rows =>
    rw [List.foldl_cons, List.map_cons, List.max?_cons']
    exact sql_max_fold_some rows r.epoch

instance : Std.Antisymm (fun (a b : Int) => a ≤ b) :=
  ⟨fun h1 h2 => Int.le_antisymm h1 h2⟩

/-- Specialisation of the max? characterisation to integers. -/
theorem int_max?_eq_some_iff (xs : List Int) (m : Int) :
    xs.max? = some m ↔ m ∈ xs ∧ ∀ x ∈ xs, x ≤ m :=
  List.max?_eq_some_iff (fun a => Int.le_refl a)
    (fun a b => by omega) (fun a b c => by omega)

/-- C9 corrected: at process start the credentials sampler resumes from
the persisted table — its initial last_processed_epoch is an upper bound
of, and when the table is non-empty attained by, the stored epochs (it is
the SQL MAX, with -1 for an empty table), so it is derived from
previously persisted records rather than reset to the chain head — and
the voluntary-exit monitor initialises its last_processed_slot to the
constant 0, also not the chain head. -/
theorem get_last_processed_epoch_resumes (rows : List CredRow) (r : CredRow)
    (h : r ∈ rows) :
    r.epoch ≤ get_last_processed_epoch rows ∧
    (∃ r2 ∈ rows, get_last_processed_epoch rows = r2.epoch) ∧
    get_last_processed_epoch [] = -1 ∧
    VoluntaryExitMonitor_init_last_processed_slot = 0 := by
  have hne : rows ≠ [] := by
    intro hnil
    rw [hnil] at h
    exact absurd h (List.not_mem_nil r)
  have hmax : ∃ m : Int, (rows.map (·.epoch)).max? = some m := by
    cases hrows : rows.map (·.epoch) with
    | nil =>
      exact absurd (List.map_eq_nil_iff.mp hrows) hne
    | cons e es =>
      exact ⟨es.foldl max e, List.max?_cons'⟩
  obtain ⟨m, hm⟩ := hmax
  obtain ⟨hmem, hub⟩ := (int_max?_eq_some_iff _ m).mp hm
  have hval : get_last_processed_epoch rows = m := by
    unfold get_last_processed_epoch
    rw [sql_max_fold_eq_max?, hm]
  refine ⟨?_, ?_, rfl, rfl⟩
  · rw [hval]
    exact hub r.epoch (List.mem_map_of_mem (·.epoch) h)
  · rcases List.mem_map.mp hmem with ⟨r2, hr2, hr2e⟩
    exact ⟨r2, hr2, by rw [hval, hr2e]⟩

/-- Witness for the corrected C9 at a one-row table holding epoch 100. -/
theorem get_last_processed_epoch_resumes_witness :
    (100 : Int) ≤ get_last_processed_epoch [⟨100, 3200, 5, 7⟩] ∧
    (∃ r2 ∈ [(⟨100, 3200, 5, 7⟩ : CredRow)],
      get_last_processed_epoch [⟨100, 3200, 5, 7⟩] = r2.epoch) ∧
    get_last_processed_epoch [] = -1 ∧
    VoluntaryExitMonitor_init_last_processed_slot = 0 :=
  get_last_processed_epoch_resumes [⟨100, 3200, 5, 7⟩] ⟨100, 3200, 5, 7⟩
    (List.mem_singleton.mpr rfl)

/-- Counterexample to C9 as stated: the start-up watermark of the
credentials sampler changes with the persisted table contents (epoch 100
stored gives 100, an empty table gives -1), so it is derived from
previously persisted records and not reset to the chain head; the
voluntary-exit monitor starts from the constant 0 rather than any head
slot. -/
theorem get_last_processed_epoch_counterexample :
    get_last_processed_epoch [⟨100, 3200, 5, 7⟩] = 100 ∧
    get_last_processed_epoch [] = -1 ∧
    get_last_processed_epoch [⟨100, 3200, 5, 7⟩] ≠
      get_last_processed_epoch [] ∧
    VoluntaryExitMonitor_init_last_processed_slot = 0 := by
  refine ⟨rfl, rfl, ?_, rfl⟩
  intro h
  have : (100 : Int) = -1 := h
  omega

end PostPectra
